import Mathlib

/-!
# Verification of the PTY bridge (`src/pty/pty_bridge.py`)

A shallow embedding of the single-file PTY bridge program: the framed
control-protocol decoder, the dispatch of decoded frames, the exit-status
mapping, and one iteration of the I/O multiplexing event loop.

Buffers and payloads are modelled as `List Nat` (each element one byte of the
Python `bytearray`/`bytes`). Side effects (writes, the terminal-resize ioctl,
signal deliveries, the blocking reap) are recorded as an ordered trace of
`Effect` values, in the order the corresponding Python calls execute.
-/

namespace PtyBridge

/-- Opcode constants from the top of `pty_bridge.py`. -/
def OPCODE_DATA : Nat := 0x01

def OPCODE_RESIZE : Nat := 0x02

def OPCODE_CLOSE : Nat := 0x03

/-- Big-endian unsigned integer of a byte list, as computed by
`struct.unpack(">I", ...)` / `struct.unpack(">HH", ...)` on its slice. -/
def unpackBE (l : List Nat) : Nat :=
  l.foldl (fun acc b => acc * 256 + b) 0

/-- A decoded control frame (`Data` / `Resize` / `Close`), spec §3. -/
inductive Frame where
  | data (payload : List Nat)
  | resize (cols rows : Nat)
  | close
  deriving DecidableEq

/-- Observable side effects of the bridge, in program order. `kill sig guarded`
records `os.kill(child_pid, sig)`; `guarded = true` means the call sits inside
`try: ... except ProcessLookupError: pass` in the source. -/
inductive Sig where
  | SIGWINCH
  | SIGHUP
  deriving DecidableEq

inductive Effect where
  | writePty (payload : List Nat)
  | writeStdout (data : List Nat)
  | setWinsize (rows cols xpixel ypixel : Nat)
  | kill (sig : Sig) (guarded : Bool)
  | waitBlocking
  deriving DecidableEq

/-- `os.kill` on a PID whose process has already been reaped raises
`ProcessLookupError`; the exception escapes unless the call is wrapped in
`try/except ProcessLookupError`. An effect satisfies this predicate exactly
when, executed after the child has disappeared, it raises an uncaught
`ProcessLookupError`. -/
def Effect.raisesOnDeadChild : Effect → Bool
  | Effect.kill _ guarded => !guarded
  | _ => false

/-- Result of one attempt to decode a frame from the front of the buffer:
a complete frame plus the remaining bytes, a one-byte resynchronization skip
(unknown opcode), or "need more bytes" (the `break` cases of the inner loop). -/
inductive DecodeResult where
  | frame (f : Frame) (rest : List Nat)
  | skip (rest : List Nat)
  | needMore
  deriving DecidableEq

/-- One decode attempt on the front of `incoming`, transcribing the branch
structure of the inner `while True` loop of `main`. The Python length guards
appear as list-shape cases: `len(incoming) < 1` is the `[]` case, the two
`len(incoming) < 5` guards are the cases with fewer than four bytes after the
opcode, and `len(incoming) < 5 + size` is `tail.length < size`. The slice
`incoming[1:5]` is the four bytes after the opcode, `incoming[5:5+size]` is
`List.take size tail`, and `del incoming[:k]` leaves the matching suffix. -/
def decode_next : List Nat → DecodeResult
  | [] => DecodeResult.needMore
  | opcode :: rest =>
    if opcode = OPCODE_DATA then
      match rest with
      | b0 :: b1 :: b2 :: b3 :: tail =>
          if tail.length < unpackBE [b0, b1, b2, b3] then DecodeResult.needMore
          else
            DecodeResult.frame
              (Frame.data (List.take (unpackBE [b0, b1, b2, b3]) tail))
              (List.drop (unpackBE [b0, b1, b2, b3]) tail)
      | _ => DecodeResult.needMore
    else if opcode = OPCODE_RESIZE then
      match rest with
      | c0 :: c1 :: r0 :: r1 :: tail =>
          DecodeResult.frame
            (Frame.resize (unpackBE [c0, c1]) (unpackBE [r0, r1])) tail
      | _ => DecodeResult.needMore
    else if opcode = OPCODE_CLOSE then
      DecodeResult.frame Frame.close rest
    else DecodeResult.skip rest

/-- Dispatch of one decoded frame: the effects it emits, in source order, and
whether it sets the `should_close` flag. `Data`: write the payload to the PTY
master iff non-empty. `Resize`: `_set_winsize` packs `("HHHH", rows, cols, 0, 0)`
for the `TIOCSWINSZ` ioctl, then an unguarded `os.kill(child_pid, SIGWINCH)`.
`Close`: only sets the flag. -/
def dispatchFrame : Frame → List Effect × Bool
  | Frame.data payload =>
      (if payload = [] then [] else [Effect.writePty payload], false)
  | Frame.resize cols rows =>
      ([Effect.setWinsize rows cols 0 0, Effect.kill Sig.SIGWINCH false], false)
  | Frame.close => ([], true)

/-- State of the frame-decoding loop: the incoming buffer, the `should_close`
flag, and the trace of effects emitted so far this iteration. -/
structure DecState where
  incoming : List Nat
  shouldClose : Bool
  effects : List Effect
  deriving DecidableEq

/-- One pass of the inner decode loop: `none` is the `break` ("need more
bytes"), `some` continues after consuming a frame or a skipped byte. -/
def decodeStep (s : DecState) : Option DecState :=
  match decode_next s.incoming with
  | DecodeResult.needMore => none
  | DecodeResult.skip rest => some ⟨rest, s.shouldClose, s.effects⟩
  | DecodeResult.frame f rest =>
      some ⟨rest, s.shouldClose || (dispatchFrame f).2,
        s.effects ++ (dispatchFrame f).1⟩

/-- The inner decode loop, fuelled; `processFrames` supplies enough fuel
(buffer length + 1) that the fuel never runs out (proved below). -/
def processFramesAux : Nat → DecState → DecState
  | 0, s => s
  | fuel + 1, s =>
      match decodeStep s with
      | none => s
      | some s' => processFramesAux fuel s'

def processFrames (s : DecState) : DecState :=
  processFramesAux (s.incoming.length + 1) s

/-- `incoming.extend(chunk)` followed by running the decode loop to
completion — the control-input arm of one loop iteration. -/
def feedChunk (s : DecState) (chunk : List Nat) : DecState :=
  processFrames ⟨s.incoming ++ chunk, s.shouldClose, s.effects⟩

/-- The sequence of frames the decoder extracts from a buffer before first
reporting "need more bytes" (skipped unknown-opcode bytes contribute none). -/
def decodedFramesAux : Nat → List Nat → List Frame
  | 0, _ => []
  | fuel + 1, buf =>
      match decode_next buf with
      | DecodeResult.needMore => []
      | DecodeResult.skip rest => decodedFramesAux fuel rest
      | DecodeResult.frame f rest => f :: decodedFramesAux fuel rest

def decodedFrames (buf : List Nat) : List Frame :=
  decodedFramesAux (buf.length + 1) buf

/-- `os.WIFEXITED`: low seven status bits all zero (POSIX wait-status
encoding, as in the C library macros the Python `os` module wraps). -/
def WIFEXITED (status : Nat) : Bool := status % 128 == 0

/-- `os.WEXITSTATUS`: bits 8..15 of the status. -/
def WEXITSTATUS (status : Nat) : Nat := status / 256 % 256

/-- `os.WIFSIGNALED`: the low seven bits name a terminating signal
(non-zero and not the stop marker `0x7f`). -/
def WIFSIGNALED (status : Nat) : Bool :=
  status % 128 != 0 && status % 128 != 127

/-- `os.WTERMSIG`: the low seven status bits. -/
def WTERMSIG (status : Nat) : Nat := status % 128

/-- `_exit_code_from_status` from the source: exit code on normal exit,
`128 + signal` on signal death, otherwise `1`. -/
def _exit_code_from_status (status : Nat) : Nat :=
  if WIFEXITED status then WEXITSTATUS status
  else if WIFSIGNALED status then 128 + WTERMSIG status
  else 1

/-- Loop-carried state of `main`'s event loop: whether `stdin_fd` is still
registered with the selector, the undecoded buffer, and `should_close`. -/
structure LoopState where
  controlOpen : Bool
  incoming : List Nat
  shouldClose : Bool
  deriving DecidableEq

/-- Result of one `os.read(master_fd, ...)`: bytes (possibly empty = EOF) or
an `OSError`. -/
inductive PtyRead where
  | ok (data : List Nat)
  | readError
  deriving DecidableEq

/-- The externally determined inputs of one loop iteration: the control chunk
if `stdin_fd` was ready (`some []` = EOF), the PTY read if `master_fd` was
ready, the `waitpid(WNOHANG)` outcome (`some status` when the child was
reaped), and the status a blocking `waitpid` would return. -/
structure IterInput where
  stdinChunk : Option (List Nat)
  ptyRead : Option PtyRead
  reapResult : Option Nat
  blockingStatus : Nat
  deriving DecidableEq

/-- One iteration either continues with a new state or returns an exit code;
either way it emits an ordered effect trace. -/
inductive IterResult where
  | next (s : LoopState) (effects : List Effect)
  | ret (code : Nat) (effects : List Effect)
  deriving DecidableEq

/-- The `"stdin"` arm of the `for key` loop: ignored once unregistered; EOF
unregisters; otherwise extend the buffer and drive the decoder. -/
def readPhaseStdin (s : LoopState) (stdinChunk : Option (List Nat)) :
    LoopState × List Effect :=
  if s.controlOpen then
    match stdinChunk with
    | none => (s, [])
    | some [] => (⟨false, s.incoming, s.shouldClose⟩, [])
    | some chunk =>
        ( ⟨true, (feedChunk ⟨s.incoming, s.shouldClose, []⟩ chunk).incoming,
            (feedChunk ⟨s.incoming, s.shouldClose, []⟩ chunk).shouldClose⟩,
          (feedChunk ⟨s.incoming, s.shouldClose, []⟩ chunk).effects )
  else (s, [])

/-- The tail of one iteration: the `should_close` handling (guarded SIGHUP,
flag cleared) followed by the `waitpid(WNOHANG)` reap poll. -/
def closeThenReap (s : LoopState) (effs : List Effect) (inp : IterInput) :
    IterResult :=
  match inp.reapResult with
  | some status =>
      IterResult.ret (_exit_code_from_status status)
        (if s.shouldClose then effs ++ [Effect.kill Sig.SIGHUP true] else effs)
  | none =>
      if s.shouldClose then
        IterResult.next ⟨s.controlOpen, s.incoming, false⟩
          (effs ++ [Effect.kill Sig.SIGHUP true])
      else IterResult.next s effs

/-- One full iteration of `while True` in `main`: the stdin arm, then the PTY
arm (`OSError` on the read is turned into empty data; empty data returns the
blocking-reap exit code at once), then `should_close`, then the reap poll. -/
def iterate (s : LoopState) (inp : IterInput) : IterResult :=
  match inp.ptyRead with
  | none => closeThenReap (readPhaseStdin s inp.stdinChunk).1
      (readPhaseStdin s inp.stdinChunk).2 inp
  | some r =>
      if (match r with | PtyRead.ok b => b | PtyRead.readError => []) = [] then
        IterResult.ret (_exit_code_from_status inp.blockingStatus)
          ((readPhaseStdin s inp.stdinChunk).2 ++ [Effect.waitBlocking])
      else
        closeThenReap (readPhaseStdin s inp.stdinChunk).1
          ((readPhaseStdin s inp.stdinChunk).2 ++
            [Effect.writeStdout
              (match r with | PtyRead.ok b => b | PtyRead.readError => [])])
          inp

/-- Recognizer for hangup-signal deliveries in an effect trace. -/
def isSigHupKill : Effect → Bool
  | Effect.kill Sig.SIGHUP _ => true
  | _ => false

/-- Number of hangup-signal deliveries recorded in an effect trace. -/
def sigHupCount (effs : List Effect) : Nat :=
  effs.countP isSigHupKill

/-- An iteration input with the control-source readiness removed — what the
selector reports once `stdin_fd` has been unregistered. -/
def eraseStdin (inp : IterInput) : IterInput :=
  ⟨none, inp.ptyRead, inp.reapResult, inp.blockingStatus⟩

/-- Running the event loop over a list of per-iteration inputs: the cumulative
effect trace and the exit code, if the loop returned. -/
def run (s : LoopState) (inputs : List IterInput) :
    List Effect × Option Nat :=
  match inputs with
  | [] => ([], none)
  | inp :: rest =>
      match iterate s inp with
      | IterResult.ret code effs => (effs, some code)
      | IterResult.next s' effs =>
          ((effs ++ (run s' rest).1), (run s' rest).2)

/-! ## Computation lemmas for the decoder -/

theorem drop_five_cons (n a b c d e : Nat) (l : List Nat) :
    List.drop (5 + n) (a :: b :: c :: d :: e :: l) = List.drop n l := by
  rw [← List.drop_drop]
  rfl

theorem decode_next_data_eq (b0 b1 b2 b3 : Nat) (tail : List Nat) :
    decode_next (1 :: b0 :: b1 :: b2 :: b3 :: tail) =
      if tail.length < unpackBE [b0, b1, b2, b3] then DecodeResult.needMore
      else
        DecodeResult.frame (Frame.data (List.take (unpackBE [b0, b1, b2, b3]) tail))
          (List.drop (unpackBE [b0, b1, b2, b3]) tail) := by
  rfl

theorem decode_next_resize_eq (c0 c1 r0 r1 : Nat) (rest : List Nat) :
    decode_next (2 :: c0 :: c1 :: r0 :: r1 :: rest) =
      DecodeResult.frame (Frame.resize (unpackBE [c0, c1]) (unpackBE [r0, r1])) rest := by
  rfl

theorem decode_next_close_eq (rest : List Nat) :
    decode_next (3 :: rest) = DecodeResult.frame Frame.close rest := by
  rfl

theorem decode_next_skip_eq (op : Nat) (rest : List Nat)
    (h1 : op ≠ OPCODE_DATA) (h2 : op ≠ OPCODE_RESIZE) (h3 : op ≠ OPCODE_CLOSE) :
    decode_next (op :: rest) = DecodeResult.skip rest := by
  simp only [decode_next]
  rw [if_neg h1, if_neg h2, if_neg h3]

theorem decode_next_short (buf : List Nat)
    (hne : buf ≠ []) (hop : buf.headD 0 = OPCODE_DATA ∨ buf.headD 0 = OPCODE_RESIZE)
    (hlen : buf.length < 5) :
    decode_next buf = DecodeResult.needMore := by
  rcases buf with _ | ⟨op, _ | ⟨a, _ | ⟨b, _ | ⟨c, _ | ⟨d, t⟩⟩⟩⟩⟩
  · exact absurd rfl hne
  all_goals
    simp only [List.headD_cons] at hop
    rcases hop with rfl | rfl
  all_goals first
    | rfl
    | (exfalso; simp only [List.length_cons] at hlen; omega)

/-- Every successful decode (frame or skip) strictly shortens the buffer. -/
theorem decode_next_shrinks (buf rest : List Nat) :
    ((∃ f, decode_next buf = DecodeResult.frame f rest) ∨
      decode_next buf = DecodeResult.skip rest) →
    rest.length < buf.length := by
  intro h
  rcases buf with _ | ⟨op, _ | ⟨a, _ | ⟨b, _ | ⟨c, _ | ⟨d, t⟩⟩⟩⟩⟩ <;>
    rcases h with ⟨f, h⟩ | h <;>
    simp only [decode_next] at h <;>
    (try split_ifs at h with h1 h2 h3) <;>
    (try cases h)
  all_goals
    simp only [List.length_cons, List.length_drop]
    omega

/-! ## The inner decode loop -/

theorem decodeStep_shrinks (s s' : DecState) (h : decodeStep s = some s') :
    s'.incoming.length < s.incoming.length := by
  unfold decodeStep at h
  cases hd : decode_next s.incoming with
  | needMore => rw [hd] at h; cases h
  | skip rest =>
      rw [hd] at h
      cases h
      exact decode_next_shrinks s.incoming rest (Or.inr hd)
  | frame f rest =>
      rw [hd] at h
      cases h
      exact decode_next_shrinks s.incoming rest (Or.inl ⟨f, hd⟩)

theorem processFramesAux_of_none (n : Nat) (s : DecState) (h : decodeStep s = none) :
    processFramesAux n s = s := by
  cases n with
  | zero => rfl
  | succ m => simp [processFramesAux, h]

theorem processFrames_of_none (s : DecState) (h : decodeStep s = none) :
    processFrames s = s :=
  processFramesAux_of_none _ s h

theorem processFramesAux_congr (n : Nat) :
    ∀ (m : Nat) (s : DecState), s.incoming.length < n → s.incoming.length < m →
      processFramesAux n s = processFramesAux m s := by
  induction n with
  | zero => intro m s h _; exact absurd h (by omega)
  | succ k ih =>
      intro m s hn hm
      cases m with
      | zero => exact absurd hm (by omega)
      | succ j =>
          simp only [processFramesAux]
          cases hstep : decodeStep s with
          | none => rfl
          | some s' =>
              have hlt := decodeStep_shrinks s s' hstep
              exact ih j s' (by omega) (by omega)

theorem processFramesAux_eq_processFrames (n : Nat) (s : DecState)
    (h : s.incoming.length < n) :
    processFramesAux n s = processFrames s :=
  processFramesAux_congr n (s.incoming.length + 1) s h (by omega)

theorem processFrames_of_step (s s' : DecState) (h : decodeStep s = some s') :
    processFrames s = processFrames s' := by
  have h1 : processFrames s = processFramesAux s.incoming.length s' := by
    unfold processFrames
    simp [processFramesAux, h]
  rw [h1]
  exact processFramesAux_eq_processFrames _ s' (decodeStep_shrinks s s' h)

theorem processFramesAux_exhausts (n : Nat) :
    ∀ s : DecState, s.incoming.length < n →
      decodeStep (processFramesAux n s) = none := by
  induction n with
  | zero => intro s h; exact absurd h (by omega)
  | succ k ih =>
      intro s h
      simp only [processFramesAux]
      cases hstep : decodeStep s with
      | none => exact hstep
      | some s' =>
          have hlt := decodeStep_shrinks s s' hstep
          exact ih s' (by omega)

theorem decodeStep_processFrames_none (s : DecState) :
    decodeStep (processFrames s) = none :=
  processFramesAux_exhausts (s.incoming.length + 1) s (by omega)

/-- Only `Close` sets the `should_close` flag. -/
theorem dispatchFrame_closes_iff (f : Frame) :
    (dispatchFrame f).2 = true ↔ f = Frame.close := by
  cases f <;> simp [dispatchFrame]

/-- The flag computed by the decode loop records whether some decoded frame
was a `Close`. -/
theorem processFramesAux_shouldClose (n : Nat) :
    ∀ s : DecState, ((processFramesAux n s).shouldClose = true ↔
      (s.shouldClose = true ∨ Frame.close ∈ decodedFramesAux n s.incoming)) := by
  induction n with
  | zero => intro s; simp [processFramesAux, decodedFramesAux]
  | succ k ih =>
      intro s
      simp only [processFramesAux, decodedFramesAux]
      cases hd : decode_next s.incoming with
      | needMore =>
          have hstep : decodeStep s = none := by unfold decodeStep; rw [hd]
          rw [hstep]
          simp
      | skip rest =>
          have hstep : decodeStep s = some ⟨rest, s.shouldClose, s.effects⟩ := by
            unfold decodeStep; rw [hd]
          rw [hstep]
          exact ih ⟨rest, s.shouldClose, s.effects⟩
      | frame f rest =>
          have hstep : decodeStep s =
              some ⟨rest, s.shouldClose || (dispatchFrame f).2,
                s.effects ++ (dispatchFrame f).1⟩ := by
            unfold decodeStep; rw [hd]
          rw [hstep]
          have h2 := ih ⟨rest, s.shouldClose || (dispatchFrame f).2,
            s.effects ++ (dispatchFrame f).1⟩
          rw [h2]
          simp only [Bool.or_eq_true, dispatchFrame_closes_iff, List.mem_cons]
          constructor
          · rintro (⟨h | h⟩ | h)
            · exact Or.inl h
            · exact Or.inr (Or.inl h.symm)
            · exact Or.inr (Or.inr h)
          · rintro (h | h | h)
            · exact Or.inl (Or.inl h)
            · exact Or.inl (Or.inr h.symm)
            · exact Or.inr h

theorem processFrames_shouldClose (s : DecState) :
    (processFrames s).shouldClose = true ↔
      (s.shouldClose = true ∨ Frame.close ∈ decodedFrames s.incoming) :=
  processFramesAux_shouldClose (s.incoming.length + 1) s

/-- Frame dispatch never delivers a hangup signal. -/
theorem dispatchFrame_no_sighup (f : Frame) :
    (dispatchFrame f).1.countP isSigHupKill = 0 := by
  cases f with
  | data p =>
      by_cases hp : p = [] <;> simp [dispatchFrame, hp, isSigHupKill]
  | resize c r => simp [dispatchFrame, isSigHupKill]
  | close => simp [dispatchFrame]

/-- The decode loop adds no hangup-signal deliveries to the trace. -/
theorem processFramesAux_sigHup (n : Nat) :
    ∀ s : DecState,
      sigHupCount (processFramesAux n s).effects = sigHupCount s.effects := by
  induction n with
  | zero => intro s; rfl
  | succ k ih =>
      intro s
      simp only [processFramesAux]
      cases hstep : decodeStep s with
      | none => rfl
      | some s' =>
          rw [ih s']
          unfold decodeStep at hstep
          cases hd : decode_next s.incoming <;> rw [hd] at hstep <;> cases hstep <;>
            simp [sigHupCount, List.countP_append, dispatchFrame_no_sighup]

theorem processFrames_sigHup (s : DecState) :
    sigHupCount (processFrames s).effects = sigHupCount s.effects :=
  processFramesAux_sigHup (s.incoming.length + 1) s

theorem decodeStep_of_needMore (buf : List Nat) (c : Bool) (e : List Effect)
    (h : decode_next buf = DecodeResult.needMore) :
    decodeStep ⟨buf, c, e⟩ = none := by
  simp only [decodeStep, h]

/-- A strict prefix of a complete DATA frame always decodes to
"need more bytes". -/
theorem data_prefix_needMore (b0 b1 b2 b3 : Nat) (payload : List Nat) (k : Nat)
    (hN : unpackBE [b0, b1, b2, b3] = payload.length)
    (hk : k < 5 + payload.length) :
    decode_next (List.take k (1 :: b0 :: b1 :: b2 :: b3 :: payload)) =
      DecodeResult.needMore := by
  rcases k with _ | _ | _ | _ | _ | m
  · rfl
  · rfl
  · rfl
  · rfl
  · rfl
  · show decode_next (1 :: b0 :: b1 :: b2 :: b3 :: List.take m payload) =
      DecodeResult.needMore
    have hc : (List.take m payload).length < unpackBE [b0, b1, b2, b3] := by
      rw [List.length_take, hN]
      omega
    rw [decode_next_data_eq, if_pos hc]

/-- The full decode of one complete DATA frame starting from an empty
buffer: the frame is consumed whole and the payload forwarded iff
non-empty. -/
theorem feedChunk_data_frame (b0 b1 b2 b3 : Nat) (payload : List Nat) (c : Bool)
    (hN : unpackBE [b0, b1, b2, b3] = payload.length) :
    feedChunk ⟨[], c, []⟩ (1 :: b0 :: b1 :: b2 :: b3 :: payload) =
      ⟨[], c, if payload = [] then [] else [Effect.writePty payload]⟩ := by
  have hd : decode_next (1 :: b0 :: b1 :: b2 :: b3 :: payload) =
      DecodeResult.frame (Frame.data payload) [] := by
    rw [decode_next_data_eq, if_neg (by omega), hN, List.take_length, List.drop_length]
  have hstep : decodeStep ⟨1 :: b0 :: b1 :: b2 :: b3 :: payload, c, []⟩ =
      some ⟨[], c, if payload = [] then [] else [Effect.writePty payload]⟩ := by
    simp only [decodeStep, hd, dispatchFrame, Bool.or_false, List.nil_append]
  show processFrames ⟨[] ++ (1 :: b0 :: b1 :: b2 :: b3 :: payload), c, []⟩ = _
  rw [List.nil_append, processFrames_of_step _ _ hstep]
  exact processFrames_of_none _ (decodeStep_of_needMore _ _ _ rfl)

/-! ## Claim theorems -/

/-- C1: a buffer starting with opcode `0x01` that holds the whole declared
frame decodes to a `Data` frame whose payload is exactly bytes `5..5+N-1`;
exactly the `5+N` frame bytes are removed from the front, the remainder is
unchanged and in order, and dispatch writes the payload to the PTY master iff
it is non-empty. -/
theorem data_frame_decode (b0 b1 b2 b3 : Nat) (tail : List Nat) (c : Bool)
    (e : List Effect) (h : unpackBE [b0, b1, b2, b3] ≤ tail.length) :
    decode_next (1 :: b0 :: b1 :: b2 :: b3 :: tail) =
      DecodeResult.frame (Frame.data (List.take (unpackBE [b0, b1, b2, b3]) tail))
        (List.drop (unpackBE [b0, b1, b2, b3]) tail) ∧
    List.drop (5 + unpackBE [b0, b1, b2, b3]) (1 :: b0 :: b1 :: b2 :: b3 :: tail) =
      List.drop (unpackBE [b0, b1, b2, b3]) tail ∧
    decodeStep ⟨1 :: b0 :: b1 :: b2 :: b3 :: tail, c, e⟩ =
      some ⟨List.drop (unpackBE [b0, b1, b2, b3]) tail, c,
        e ++ (if List.take (unpackBE [b0, b1, b2, b3]) tail = [] then []
              else [Effect.writePty (List.take (unpackBE [b0, b1, b2, b3]) tail)])⟩ ∧
    (Effect.writePty (List.take (unpackBE [b0, b1, b2, b3]) tail) ∈
        (dispatchFrame (Frame.data (List.take (unpackBE [b0, b1, b2, b3]) tail))).1 ↔
      List.take (unpackBE [b0, b1, b2, b3]) tail ≠ []) := by
  have hd : decode_next (1 :: b0 :: b1 :: b2 :: b3 :: tail) =
      DecodeResult.frame (Frame.data (List.take (unpackBE [b0, b1, b2, b3]) tail))
        (List.drop (unpackBE [b0, b1, b2, b3]) tail) := by
    rw [decode_next_data_eq, if_neg (by omega)]
  refine ⟨hd, drop_five_cons .., ?_, ?_⟩
  · simp only [decodeStep, hd, dispatchFrame, Bool.or_false]
  · by_cases hp : List.take (unpackBE [b0, b1, b2, b3]) tail = [] <;>
      simp [dispatchFrame, hp]

theorem data_frame_decode_witness :
    unpackBE [0, 0, 0, 2] ≤ ([10, 20, 30] : List Nat).length ∧
    decodeStep ⟨1 :: 0 :: 0 :: 0 :: 2 :: [10, 20, 30], false, []⟩ =
      some ⟨List.drop (unpackBE [0, 0, 0, 2]) [10, 20, 30], false,
        [] ++ (if List.take (unpackBE [0, 0, 0, 2]) [10, 20, 30] = ([] : List Nat)
               then []
               else [Effect.writePty (List.take (unpackBE [0, 0, 0, 2]) [10, 20, 30])])⟩ :=
  ⟨by decide, (data_frame_decode 0 0 0 2 [10, 20, 30] false [] (by decide)).2.2.1⟩

/-- C2: `_exit_code_from_status` returns the exit code on a normal exit,
`128 + signal` on a signal death, and `1` on any other status; a normal exit
with status `0` maps to `0` and death by signal `9` maps to `137`. -/
theorem exit_status_mapping :
    (∀ status : Nat, WIFEXITED status = true →
      _exit_code_from_status status = WEXITSTATUS status) ∧
    (∀ status : Nat, WIFEXITED status = false → WIFSIGNALED status = true →
      _exit_code_from_status status = 128 + WTERMSIG status) ∧
    (∀ status : Nat, WIFEXITED status = false → WIFSIGNALED status = false →
      _exit_code_from_status status = 1) ∧
    (∀ code : Nat, code < 256 → _exit_code_from_status (code * 256) = code) ∧
    (∀ sig : Nat, 1 ≤ sig → sig ≤ 126 → _exit_code_from_status sig = 128 + sig) ∧
    _exit_code_from_status 0 = 0 ∧
    _exit_code_from_status 9 = 137 := by
  refine ⟨?_, ?_, ?_, ?_, ?_, by decide, by decide⟩
  · intro status h
    simp [_exit_code_from_status, h]
  · intro status h1 h2
    simp [_exit_code_from_status, h1, h2]
  · intro status h1 h2
    simp [_exit_code_from_status, h1, h2]
  · intro code hc
    have h1 : WIFEXITED (code * 256) = true := by
      simp only [WIFEXITED, beq_iff_eq]
      omega
    simp only [_exit_code_from_status, h1, if_true, WEXITSTATUS]
    omega
  · intro sig h1 h2
    have he : WIFEXITED sig = false := by
      simp only [WIFEXITED, beq_eq_false_iff_ne, ne_eq]
      omega
    have hs : WIFSIGNALED sig = true := by
      simp only [WIFSIGNALED, Bool.and_eq_true, bne_iff_ne, ne_eq]
      omega
    simp only [_exit_code_from_status, he, hs, if_true, Bool.false_eq_true,
      if_false, WTERMSIG]
    omega

theorem exit_status_mapping_witness :
    _exit_code_from_status (7 * 256) = 7 ∧
    _exit_code_from_status 15 = 128 + 15 ∧
    _exit_code_from_status 127 = 1 :=
  ⟨exit_status_mapping.2.2.2.1 7 (by decide),
   exit_status_mapping.2.2.2.2.1 15 (by decide) (by decide),
   exit_status_mapping.2.2.1 127 (by decide) (by decide)⟩

/-- C3: on an unrecognized opcode the decoder drops exactly that one byte,
leaves the rest unchanged and in order, and decoding continues immediately on
the remainder, so an unknown byte followed by a valid frame still yields that
frame. -/
theorem unknown_opcode_resync (op : Nat) (rest : List Nat) (c : Bool)
    (e : List Effect) (h1 : op ≠ OPCODE_DATA) (h2 : op ≠ OPCODE_RESIZE)
    (h3 : op ≠ OPCODE_CLOSE) :
    decode_next (op :: rest) = DecodeResult.skip rest ∧
    decodeStep ⟨op :: rest, c, e⟩ = some ⟨rest, c, e⟩ ∧
    processFrames ⟨op :: rest, c, e⟩ = processFrames ⟨rest, c, e⟩ ∧
    decodedFrames (op :: rest) = decodedFrames rest := by
  have hd := decode_next_skip_eq op rest h1 h2 h3
  have hstep : decodeStep ⟨op :: rest, c, e⟩ = some ⟨rest, c, e⟩ := by
    simp only [decodeStep, hd]
  refine ⟨hd, hstep, processFrames_of_step _ _ hstep, ?_⟩
  unfold decodedFrames
  simp only [List.length_cons, decodedFramesAux, hd]

theorem unknown_opcode_resync_witness :
    decode_next (255 :: [1, 0, 0, 0, 1, 65]) = DecodeResult.skip [1, 0, 0, 0, 1, 65] ∧
    decodedFrames (255 :: [1, 0, 0, 0, 1, 65]) = decodedFrames [1, 0, 0, 0, 1, 65] ∧
    decodedFrames [1, 0, 0, 0, 1, 65] = [Frame.data [65]] := by
  have h := unknown_opcode_resync 255 [1, 0, 0, 0, 1, 65] false []
    (by decide) (by decide) (by decide)
  exact ⟨h.1, h.2.2.2, by decide⟩

/-- C6: dispatching a `Resize` frame issues the resize control call with
exactly the decoded rows and cols and zeroed pixel fields, then delivers the
window-change signal, in that order; the wire fields are 2-byte big-endian
cols then rows, so `cols=80, rows=24` arrives as `[2, 0, 80, 0, 24]`. -/
theorem resize_dispatch_order (cols rows c0 c1 r0 r1 : Nat) (rest : List Nat)
    (c : Bool) (e : List Effect) :
    dispatchFrame (Frame.resize cols rows) =
      ([Effect.setWinsize rows cols 0 0, Effect.kill Sig.SIGWINCH false], false) ∧
    decode_next (2 :: c0 :: c1 :: r0 :: r1 :: rest) =
      DecodeResult.frame (Frame.resize (unpackBE [c0, c1]) (unpackBE [r0, r1])) rest ∧
    decodeStep ⟨[2, 0, 80, 0, 24], c, e⟩ =
      some ⟨[], c, e ++ [Effect.setWinsize 24 80 0 0, Effect.kill Sig.SIGWINCH false]⟩ := by
  refine ⟨rfl, decode_next_resize_eq c0 c1 r0 r1 rest, ?_⟩
  simp [decodeStep, decode_next, dispatchFrame, unpackBE, OPCODE_DATA, OPCODE_RESIZE]

/-- C9: the inner decode loop terminates on every finite buffer: each
continuing pass strictly shortens the buffer, so buffer-length-plus-one passes
always suffice to reach the need-more-bytes break. -/
theorem decode_loop_terminates :
    (∀ s s' : DecState, decodeStep s = some s' →
      s'.incoming.length < s.incoming.length) ∧
    (∀ s : DecState, decodeStep (processFramesAux (s.incoming.length + 1) s) = none) :=
  ⟨decodeStep_shrinks, fun s => decodeStep_processFrames_none s⟩

/-- C4: a buffer that begins with a recognized opcode but holds fewer bytes
than the frame requires is left byte-for-byte unchanged with a need-more-bytes
report, so the frame decodes once the missing bytes arrive; consequently a
DATA frame split at any point across two control-input reads produces the
identical decode state and forwarded payload as the unsplit frame. -/
theorem need_more_preserves_buffer :
    (∀ (buf : List Nat) (c : Bool) (e : List Effect),
      buf ≠ [] → (buf.headD 0 = OPCODE_DATA ∨ buf.headD 0 = OPCODE_RESIZE) →
      buf.length < 5 →
      decode_next buf = DecodeResult.needMore ∧
      processFrames ⟨buf, c, e⟩ = ⟨buf, c, e⟩) ∧
    (∀ (b0 b1 b2 b3 : Nat) (tail : List Nat) (c : Bool) (e : List Effect),
      tail.length < unpackBE [b0, b1, b2, b3] →
      decode_next (1 :: b0 :: b1 :: b2 :: b3 :: tail) = DecodeResult.needMore ∧
      processFrames ⟨1 :: b0 :: b1 :: b2 :: b3 :: tail, c, e⟩ =
        ⟨1 :: b0 :: b1 :: b2 :: b3 :: tail, c, e⟩) ∧
    (∀ (b0 b1 b2 b3 : Nat) (payload : List Nat) (k : Nat) (c : Bool),
      unpackBE [b0, b1, b2, b3] = payload.length →
      feedChunk (feedChunk ⟨[], c, []⟩
          (List.take k (1 :: b0 :: b1 :: b2 :: b3 :: payload)))
        (List.drop k (1 :: b0 :: b1 :: b2 :: b3 :: payload)) =
        feedChunk ⟨[], c, []⟩ (1 :: b0 :: b1 :: b2 :: b3 :: payload) ∧
      feedChunk ⟨[], c, []⟩ (1 :: b0 :: b1 :: b2 :: b3 :: payload) =
        ⟨[], c, if payload = [] then [] else [Effect.writePty payload]⟩) := by
  refine ⟨?_, ?_, ?_⟩
  · intro buf c e hne hop hlen
    have hd := decode_next_short buf hne hop hlen
    exact ⟨hd, processFrames_of_none _ (decodeStep_of_needMore _ _ _ hd)⟩
  · intro b0 b1 b2 b3 tail c e hlt
    have hd : decode_next (1 :: b0 :: b1 :: b2 :: b3 :: tail) =
        DecodeResult.needMore := by
      rw [decode_next_data_eq, if_pos hlt]
    exact ⟨hd, processFrames_of_none _ (decodeStep_of_needMore _ _ _ hd)⟩
  · intro b0 b1 b2 b3 payload k c hN
    refine ⟨?_, feedChunk_data_frame b0 b1 b2 b3 payload c hN⟩
    by_cases hk : k < 5 + payload.length
    · have hpre := data_prefix_needMore b0 b1 b2 b3 payload k hN hk
      have h1 : feedChunk ⟨[], c, []⟩
          (List.take k (1 :: b0 :: b1 :: b2 :: b3 :: payload)) =
          ⟨List.take k (1 :: b0 :: b1 :: b2 :: b3 :: payload), c, []⟩ := by
        show processFrames
          ⟨[] ++ List.take k (1 :: b0 :: b1 :: b2 :: b3 :: payload), c, []⟩ = _
        rw [List.nil_append]
        exact processFrames_of_none _ (decodeStep_of_needMore _ _ _ hpre)
      rw [h1]
      show processFrames
        ⟨List.take k (1 :: b0 :: b1 :: b2 :: b3 :: payload) ++
          List.drop k (1 :: b0 :: b1 :: b2 :: b3 :: payload), c, []⟩ = _
      rw [List.take_append_drop]
      show _ = processFrames ⟨[] ++ (1 :: b0 :: b1 :: b2 :: b3 :: payload), c, []⟩
      rw [List.nil_append]
    · have hlenF : (1 :: b0 :: b1 :: b2 :: b3 :: payload).length =
          5 + payload.length := by
        simp only [List.length_cons]
        omega
      have htake : List.take k (1 :: b0 :: b1 :: b2 :: b3 :: payload) =
          1 :: b0 :: b1 :: b2 :: b3 :: payload :=
        List.take_of_length_le (by omega)
      have hdrop : List.drop k (1 :: b0 :: b1 :: b2 :: b3 :: payload) =
          [] :=
        List.drop_eq_nil_of_le (by omega)
      rw [htake, hdrop, feedChunk_data_frame b0 b1 b2 b3 payload c hN]
      show processFrames
        ⟨[] ++ [], c, if payload = [] then [] else [Effect.writePty payload]⟩ = _
      rw [List.nil_append]
      exact processFrames_of_none _ (decodeStep_of_needMore _ _ _ rfl)

theorem need_more_preserves_buffer_witness :
    unpackBE [0, 0, 0, 3] = ([7, 8, 9] : List Nat).length ∧
    feedChunk (feedChunk ⟨[], false, []⟩
        (List.take 3 (1 :: 0 :: 0 :: 0 :: 3 :: [7, 8, 9])))
      (List.drop 3 (1 :: 0 :: 0 :: 0 :: 3 :: [7, 8, 9])) =
      feedChunk ⟨[], false, []⟩ (1 :: 0 :: 0 :: 0 :: 3 :: [7, 8, 9]) ∧
    decode_next [2, 0] = DecodeResult.needMore :=
  ⟨by decide,
   (need_more_preserves_buffer.2.2 0 0 0 3 [7, 8, 9] 3 false (by decide)).1,
   (need_more_preserves_buffer.1 [2, 0] false [] (by decide) (by decide)
     (by decide)).1⟩

theorem decode_loop_terminates_witness :
    decodeStep ⟨[9], false, []⟩ = some ⟨[], false, []⟩ ∧
    (⟨[], false, []⟩ : DecState).incoming.length <
      (⟨[9], false, []⟩ : DecState).incoming.length :=
  ⟨by decide, decode_loop_terminates.1 ⟨[9], false, []⟩ ⟨[], false, []⟩ (by decide)⟩

/-- C5 counterexample: the single read `[0x03, 0x03]` carries two CLOSE
frame occurrences, yet the iteration delivers exactly one hangup signal —
the `should_close` flag coalesces them — so "one delivery per occurrence,
even within one iteration" fails. -/
theorem close_per_occurrence_refuted :
    decodedFrames [3, 3] = [Frame.close, Frame.close] ∧
    iterate ⟨true, [], false⟩ ⟨some [3, 3], none, none, 0⟩ =
      IterResult.next ⟨true, [], false⟩ [Effect.kill Sig.SIGHUP true] ∧
    sigHupCount [Effect.kill Sig.SIGHUP true] = 1 := by
  decide

/-- C5 (amended): an iteration whose control read decodes at least one CLOSE
frame delivers exactly one guarded hangup signal, placed after the read-phase
effects (never inline during decoding — the read phase itself contains no
hangup delivery); several CLOSE frames within one iteration coalesce into
that single delivery, the flag is cleared, and with the child still running
the loop continues rather than terminating. -/
theorem close_coalesced_single_sighup (s : LoopState) (chunk : List Nat)
    (bst : Nat) (hopen : s.controlOpen = true) (hsc : s.shouldClose = false)
    (hne : chunk ≠ []) :
    iterate s ⟨some chunk, none, none, bst⟩ =
      IterResult.next
        ⟨true, (feedChunk ⟨s.incoming, false, []⟩ chunk).incoming, false⟩
        ((feedChunk ⟨s.incoming, false, []⟩ chunk).effects ++
          (if Frame.close ∈ decodedFrames (s.incoming ++ chunk)
           then [Effect.kill Sig.SIGHUP true] else [])) ∧
    sigHupCount (feedChunk ⟨s.incoming, false, []⟩ chunk).effects = 0 := by
  obtain ⟨a, t, rfl⟩ := List.exists_cons_of_ne_nil hne
  have hrp : readPhaseStdin s (some (a :: t)) =
      (⟨true, (feedChunk ⟨s.incoming, false, []⟩ (a :: t)).incoming,
        (feedChunk ⟨s.incoming, false, []⟩ (a :: t)).shouldClose⟩,
       (feedChunk ⟨s.incoming, false, []⟩ (a :: t)).effects) := by
    simp only [readPhaseStdin, hopen, hsc, if_true]
  constructor
  · show closeThenReap (readPhaseStdin s (some (a :: t))).1
      (readPhaseStdin s (some (a :: t))).2 ⟨some (a :: t), none, none, bst⟩ = _
    rw [hrp]
    by_cases hmem : Frame.close ∈ decodedFrames (s.incoming ++ (a :: t))
    · have hsc2 : (feedChunk ⟨s.incoming, false, []⟩ (a :: t)).shouldClose = true :=
        (processFrames_shouldClose ⟨s.incoming ++ (a :: t), false, []⟩).mpr
          (Or.inr hmem)
      simp [closeThenReap, hsc2, hmem]
    · have hsc2 : (feedChunk ⟨s.incoming, false, []⟩ (a :: t)).shouldClose =
          false := by
        cases hb : (feedChunk ⟨s.incoming, false, []⟩ (a :: t)).shouldClose
        · rfl
        · rcases (processFrames_shouldClose
            ⟨s.incoming ++ (a :: t), false, []⟩).mp hb with h | h
          · cases h
          · exact absurd h hmem
      simp [closeThenReap, hsc2, hmem]
  · exact (processFrames_sigHup ⟨s.incoming ++ (a :: t), false, []⟩).trans rfl

theorem close_coalesced_single_sighup_witness :
    iterate ⟨true, [], false⟩ ⟨some [3], none, none, 0⟩ =
      IterResult.next
        ⟨true, (feedChunk ⟨[], false, []⟩ [3]).incoming, false⟩
        ((feedChunk ⟨[], false, []⟩ [3]).effects ++
          (if Frame.close ∈ decodedFrames ([] ++ [3])
           then [Effect.kill Sig.SIGHUP true] else [])) ∧
    sigHupCount (feedChunk ⟨[], false, []⟩ [3]).effects = 0 :=
  close_coalesced_single_sighup ⟨true, [], false⟩ [3] 0 rfl rfl (by decide)

/-- C7: a failed PTY read is handled exactly like a zero-byte PTY read — the
iteration performs the blocking reap and returns the mapped exit status at
once; the read failure is never surfaced as a distinct fatal error. -/
theorem pty_eof_error_identical (s : LoopState) (sc : Option (List Nat))
    (reap : Option Nat) (bst : Nat) :
    iterate s ⟨sc, some PtyRead.readError, reap, bst⟩ =
      iterate s ⟨sc, some (PtyRead.ok []), reap, bst⟩ ∧
    iterate s ⟨sc, some (PtyRead.ok []), reap, bst⟩ =
      IterResult.ret (_exit_code_from_status bst)
        ((readPhaseStdin s sc).2 ++ [Effect.waitBlocking]) := by
  constructor <;> rfl

theorem closeThenReap_controlOpen (s : LoopState) (effs : List Effect)
    (inp : IterInput) (s' : LoopState) (e2 : List Effect)
    (h : closeThenReap s effs inp = IterResult.next s' e2) :
    s'.controlOpen = s.controlOpen := by
  unfold closeThenReap at h
  cases hr : inp.reapResult <;> rw [hr] at h
  · split_ifs at h <;> cases h <;> rfl
  · cases h

theorem iterate_controlClosed (s : LoopState) (inp : IterInput)
    (h : s.controlOpen = false) :
    iterate s inp = iterate s (eraseStdin inp) := by
  have hc : ∀ effs : List Effect,
      closeThenReap s effs (eraseStdin inp) = closeThenReap s effs inp := by
    intro effs
    unfold closeThenReap eraseStdin
    rfl
  have hrp1 : readPhaseStdin s inp.stdinChunk = (s, []) := by
    unfold readPhaseStdin
    rw [if_neg (by simp [h])]
  have hrp2 : readPhaseStdin s (eraseStdin inp).stdinChunk = (s, []) := by
    unfold readPhaseStdin eraseStdin
    rw [if_neg (by simp [h])]
  have hb : (eraseStdin inp).blockingStatus = inp.blockingStatus := rfl
  have hpty : (eraseStdin inp).ptyRead = inp.ptyRead := rfl
  unfold iterate
  rw [hrp1, hrp2]
  simp only [hc, hb, hpty]

theorem iterate_next_controlOpen (s : LoopState) (inp : IterInput)
    (s' : LoopState) (effs : List Effect) (h : s.controlOpen = false)
    (hit : iterate s inp = IterResult.next s' effs) :
    s'.controlOpen = false := by
  unfold iterate at hit
  have hrp : readPhaseStdin s inp.stdinChunk = (s, []) := by
    unfold readPhaseStdin
    rw [if_neg (by simp [h])]
  rw [hrp] at hit
  cases hp : inp.ptyRead <;> rw [hp] at hit <;> dsimp only at hit
  · exact (closeThenReap_controlOpen _ _ _ _ _ hit).trans h
  case some r =>
    by_cases hdata :
        (match r with | PtyRead.ok b => b | PtyRead.readError => []) = []
    · rw [if_pos hdata] at hit
      cases hit
    · rw [if_neg hdata] at hit
      exact (closeThenReap_controlOpen _ _ _ _ _ hit).trans h

theorem run_controlClosed : ∀ (inputs : List IterInput) (s : LoopState),
    s.controlOpen = false → run s inputs = run s (inputs.map eraseStdin) := by
  intro inputs
  induction inputs with
  | nil => intro s h; rfl
  | cons inp rest ih =>
      intro s h
      simp only [run, List.map_cons]
      rw [← iterate_controlClosed s inp h]
      cases hit : iterate s inp with
      | ret code effs => rfl
      | next s' effs =>
          show (effs ++ (run s' rest).1, (run s' rest).2) =
            (effs ++ (run s' (List.map eraseStdin rest)).1,
              (run s' (List.map eraseStdin rest)).2)
          rw [ih s' (iterate_next_controlOpen s inp s' effs h hit)]

/-- C8: once a control read returns zero bytes the source is unregistered
(`RUNNING → RUNNING_NO_CONTROL`); from then on control readiness is never
consulted again — permanently, over any continuation of the run — while
PTY-to-output forwarding proceeds unaffected. -/
theorem control_eof_permanent (s : LoopState) (inp : IterInput)
    (h : s.controlOpen = false) :
    (∀ (inc : List Nat) (f : Bool),
      readPhaseStdin ⟨true, inc, f⟩ (some []) = (⟨false, inc, f⟩, [])) ∧
    iterate s inp = iterate s (eraseStdin inp) ∧
    (∀ (s' : LoopState) (effs : List Effect),
      iterate s inp = IterResult.next s' effs → s'.controlOpen = false) ∧
    (∀ inputs : List IterInput, run s inputs = run s (inputs.map eraseStdin)) ∧
    (∀ (inc data : List Nat) (sc2 : Option (List Nat)) (bst : Nat), data ≠ [] →
      iterate ⟨false, inc, false⟩ ⟨sc2, some (PtyRead.ok data), none, bst⟩ =
        IterResult.next ⟨false, inc, false⟩ [Effect.writeStdout data]) := by
  refine ⟨fun inc f => rfl, iterate_controlClosed s inp h,
    fun s' effs hit => iterate_next_controlOpen s inp s' effs h hit,
    fun inputs => run_controlClosed inputs s h, ?_⟩
  intro inc data sc2 bst hd
  unfold iterate
  have hrp : readPhaseStdin ⟨false, inc, false⟩ sc2 =
      (⟨false, inc, false⟩, []) := by
    unfold readPhaseStdin
    rw [if_neg (by simp)]
  simp only [hrp]
  rw [if_neg hd]
  simp [closeThenReap]

theorem control_eof_permanent_witness :
    iterate ⟨false, [5], false⟩ ⟨some [3], some (PtyRead.ok [65]), none, 0⟩ =
      IterResult.next ⟨false, [5], false⟩ [Effect.writeStdout [65]] :=
  (control_eof_permanent ⟨false, [5], false⟩
      ⟨some [3], some (PtyRead.ok [65]), none, 0⟩ rfl).2.2.2.2
    [5] [65] (some [3]) 0 (by decide)

/-- C10: the hangup delivery for a close request is wrapped in the
`ProcessLookupError` guard, but the window-change delivery in RESIZE dispatch
is not — dispatching a RESIZE after the child has disappeared raises an
uncaught `ProcessLookupError`, while a CLOSE in the same situation is
silently ignored. -/
theorem resize_unguarded_close_guarded :
    (∀ cols rows : Nat,
      Effect.kill Sig.SIGWINCH false ∈ (dispatchFrame (Frame.resize cols rows)).1 ∧
      (dispatchFrame (Frame.resize cols rows)).1.any Effect.raisesOnDeadChild =
        true) ∧
    Effect.raisesOnDeadChild (Effect.kill Sig.SIGWINCH false) = true ∧
    Effect.raisesOnDeadChild (Effect.kill Sig.SIGHUP true) = false ∧
    iterate ⟨true, [], false⟩ ⟨some [2, 0, 80, 0, 24], none, none, 0⟩ =
      IterResult.next ⟨true, [], false⟩
        [Effect.setWinsize 24 80 0 0, Effect.kill Sig.SIGWINCH false] ∧
    List.any [Effect.setWinsize 24 80 0 0, Effect.kill Sig.SIGWINCH false]
      Effect.raisesOnDeadChild = true ∧
    iterate ⟨true, [], false⟩ ⟨some [3], none, none, 0⟩ =
      IterResult.next ⟨true, [], false⟩ [Effect.kill Sig.SIGHUP true] ∧
    List.any [Effect.kill Sig.SIGHUP true] Effect.raisesOnDeadChild = false := by
  refine ⟨fun cols rows => ⟨?_, ?_⟩, by decide, by decide, by decide, by decide,
    by decide, by decide⟩
  · simp [dispatchFrame]
  · simp [dispatchFrame, Effect.raisesOnDeadChild]

end PtyBridge
